import Mathlib

/-!
Shallow embedding of the data-preparation logic of `appDataViz.py`
(a pandas/streamlit dashboard over regional education-enrollment data),
together with theorems settling the specification's claims about it.

Modelling choices:
* A pandas DataFrame of enrollment records becomes a `List Row`, one `Row`
  per data row, with the columns the program reads as record fields.
  `Total Infrastructure` may be missing (`NaN` in pandas), hence `Option ℕ`.
* The float column `Learners per Infra` produced by row-wise division is
  embedded by the inductive type `LpI`: a finite rational, `+∞` (pandas
  yields `inf` for `n / 0` with `n > 0`) or `NaN` (pandas yields `NaN`
  for `0 / 0`).  Enrollment and infrastructure counts are non-negative
  integers in the data, so no negative-infinity case arises.
* pandas `Series.unique` keeps first occurrences (`uniqueFirst` below),
  Python `sorted` and `DataFrame.sort_values` are embedded with Mathlib's
  `insertionSort`, and `groupby` sorts its keys ascending, so a group-by
  iterates over `sortedDistinct` keys.
* pandas aggregation `mean` skips `NaN` values (`skipna=True` default) and
  returns `NaN` on an all-`NaN` (or empty) group; `lpiMean` mirrors this.
-/

namespace AppDataViz

/-- One data row of the loaded spreadsheet: the columns `appDataViz.py`
reads.  `Total Infrastructure` may be missing (pandas `NaN`). -/
structure Row where
  schoolYear : String
  region : String
  level : String
  sector : String
  totalEnrollment : ℕ
  totalInfrastructure : Option ℕ
deriving DecidableEq

/-- Value of the derived float column `Learners per Infra`: a finite
rational, positive infinity, or `NaN` (IEEE division outcomes for
non-negative integer numerator and denominator). -/
inductive LpI where
  | nan : LpI
  | fin (q : ℚ) : LpI
  | inf : LpI
deriving DecidableEq

/-- A row of the derived SHS table: all original columns (the embedded
input row) plus the single added column `Learners per Infra`. -/
structure CRow where
  row : Row
  learnersPerInfra : LpI
deriving DecidableEq

/-- Float division `n / d` as performed by line 30 of the source on
non-negative integer columns: ordinary rational division when `d ≠ 0`,
`+∞` when `d = 0 < n`, `NaN` when `n = d = 0`. -/
def lpiDiv (n d : ℕ) : LpI :=
  if d = 0 then (if n = 0 then LpI.nan else LpI.inf) else LpI.fin ((n : ℚ) / (d : ℚ))

/-- Embeds `compute_shs` (lines 26-32): keep the rows with
`Level == "Senior High School"` and a present `Total Infrastructure`,
and add the column `Learners per Infra = Total Enrollment / Total
Infrastructure` to each kept row. -/
def compute_shs (df : List Row) : List CRow :=
  (df.filter (fun r => (r.level == "Senior High School") && r.totalInfrastructure.isSome)).map
    (fun r => { row := r,
                learnersPerInfra := lpiDiv r.totalEnrollment (r.totalInfrastructure.getD 0) })

/-- State-passing form of `compute_shs`, a transform, recording the effect of the
call on the caller's table: the source copies the filtered frame before
assigning the new column (`.copy()` on line 28), so the input table is
returned unchanged alongside the new table. -/
def compute_shs_run (df : List Row) : List Row × List CRow :=
  (df, compute_shs df)

/-- pandas `Series.unique` on a string column: the distinct values in
order of first appearance. -/
def uniqueFirst : List String → List String
  | [] => []
  | x :: xs => x :: (uniqueFirst xs).filter (fun y => y != x)

/-- Python `sorted(xs.unique())`: the distinct values in ascending order.  Also the
key order of a pandas `groupby` on a string column (keys sorted ascending). -/
def sortedDistinct (xs : List String) : List String :=
  List.insertionSort (· ≤ ·) (uniqueFirst xs)

/-- Embeds `get_year_order` (lines 35-38): `sorted(df["School Year"].unique())`. -/
def get_year_order (df : List Row) : List String :=
  sortedDistinct (df.map (fun r => r.schoolYear))

theorem mem_uniqueFirst (xs : List String) (a : String) :
    a ∈ uniqueFirst xs ↔ a ∈ xs := by
  induction xs with
  | nil => simp [uniqueFirst]
  | cons x xs ih =>
    simp only [uniqueFirst, List.mem_cons, List.mem_filter, ih, bne_iff_ne, ne_eq]
    by_cases hax : a = x
    · simp [hax]
    · simp [hax]

theorem nodup_uniqueFirst (xs : List String) : (uniqueFirst xs).Nodup := by
  induction xs with
  | nil => exact List.nodup_nil
  | cons x xs ih =>
    refine List.nodup_cons.mpr ⟨?_, ih.filter _⟩
    intro hx
    have := (List.mem_filter.mp hx).2
    simp at this

theorem mem_sortedDistinct (xs : List String) (a : String) :
    a ∈ sortedDistinct xs ↔ a ∈ xs := by
  unfold sortedDistinct
  rw [List.mem_insertionSort]
  exact mem_uniqueFirst xs a

theorem nodup_sortedDistinct (xs : List String) : (sortedDistinct xs).Nodup :=
  ((List.perm_insertionSort _ _).nodup_iff).mpr (nodup_uniqueFirst xs)

theorem sorted_sortedDistinct (xs : List String) :
    List.Sorted (· ≤ ·) (sortedDistinct xs) :=
  List.sorted_insertionSort _ _

/-- Whether a `Learners per Infra` value is `NaN`. -/
def LpI.isNan : LpI → Bool
  | LpI.nan => true
  | _ => false

/-- IEEE addition restricted to the values that occur in the column:
`NaN` absorbs, then `+∞` absorbs, finite values add. -/
def LpI.add : LpI → LpI → LpI
  | LpI.nan, _ => LpI.nan
  | _, LpI.nan => LpI.nan
  | LpI.inf, _ => LpI.inf
  | _, LpI.inf => LpI.inf
  | LpI.fin p, LpI.fin q => LpI.fin (p + q)

/-- Division of a column value by a positive count (used for the mean). -/
def LpI.divNat : LpI → ℕ → LpI
  | LpI.nan, _ => LpI.nan
  | LpI.inf, _ => LpI.inf
  | LpI.fin q, n => LpI.fin (q / (n : ℚ))

/-- pandas `mean` over a group of `Learners per Infra` values: `NaN`
values are skipped (`skipna=True` default); an empty or all-`NaN` group
yields `NaN`; otherwise the sum of the remaining values divided by their
count (so a single `+∞` makes the mean `+∞`). -/
def lpiMean (vs : List LpI) : LpI :=
  if (vs.filter (fun v => !v.isNan)).isEmpty then LpI.nan
  else ((vs.filter (fun v => !v.isNan)).foldr LpI.add (LpI.fin 0)).divNat
    (vs.filter (fun v => !v.isNan)).length

/-- The comparison `DataFrame.sort_values` effectively sorts by: the usual
float order on finite values and `+∞`, with `NaN` placed at the bottom
(so that `NaN` rows land last under `ascending=False`, as pandas puts
them with `na_position="last"`). -/
def LpI.ble : LpI → LpI → Bool
  | LpI.nan, _ => true
  | _, LpI.nan => false
  | _, LpI.inf => true
  | LpI.inf, _ => false
  | LpI.fin p, LpI.fin q => p ≤ q

/-- Descending-by-value order on the `(Region, mean)` pairs of the
ranking view: `a` may precede `b` when `b`'s value is `≤` `a`'s. -/
def rankLE (a b : String × LpI) : Prop := LpI.ble b.2 a.2 = true

instance : DecidableRel rankLE := fun a b =>
  inferInstanceAs (Decidable (LpI.ble b.2 a.2 = true))

set_option linter.unnecessarySeqFocus false in
theorem LpI.ble_total (x y : LpI) : LpI.ble x y = true ∨ LpI.ble y x = true := by
  cases x <;> cases y <;> simp [LpI.ble] <;> exact le_total _ _

set_option linter.unnecessarySeqFocus false in
theorem LpI.ble_trans {x y z : LpI} (hxy : LpI.ble x y = true)
    (hyz : LpI.ble y z = true) : LpI.ble x z = true := by
  cases x <;> cases y <;> cases z <;> simp_all [LpI.ble]
  exact le_trans hxy hyz

instance : IsTotal (String × LpI) rankLE :=
  ⟨fun a b => LpI.ble_total b.2 a.2⟩

instance : IsTrans (String × LpI) rankLE :=
  ⟨fun _ _ _ hab hbc => LpI.ble_trans hbc hab⟩

/-- The grouped stage of the ranking view (lines 235-239): filter the SHS
table to the selected year, group by `Region` (keys in ascending order, as
pandas `groupby` yields them), and take the mean of `Learners per Infra`
in each group. -/
def rankingGroups (shs : List CRow) (year : String) : List (String × LpI) :=
  (sortedDistinct ((shs.filter (fun c => c.row.schoolYear == year)).map
      (fun c => c.row.region))).map
    (fun g => (g, lpiMean (((shs.filter (fun c => c.row.schoolYear == year)).filter
      (fun c => c.row.region == g)).map (fun c => c.learnersPerInfra))))

/-- Embeds `ranking` (lines 235-242): the grouped means sorted descending by mean
(`sort_values(ascending=False)`). -/
def ranking (shs : List CRow) (year : String) : List (String × LpI) :=
  List.insertionSort rankLE (rankingGroups shs year)

/-- Embeds `nat_shs` (lines 89-92): group the SHS table by `School Year` (keys in
ascending order) and sum `Total Enrollment` and `Total Infrastructure` per
group.  A missing infrastructure value counts as `0` in the sum, as pandas
`sum` skips `NaN`; rows produced by `compute_shs` always have it present. -/
def nat_shs (shs : List CRow) : List (String × ℕ × ℕ) :=
  (sortedDistinct (shs.map (fun c => c.row.schoolYear))).map
    (fun y => (y,
      ((shs.filter (fun c => c.row.schoolYear == y)).map
        (fun c => c.row.totalEnrollment)).sum,
      ((shs.filter (fun c => c.row.schoolYear == y)).map
        (fun c => c.row.totalInfrastructure.getD 0)).sum))

/-- The causes `pd.read_excel` can fail with; the `except Exception` on
line 54 treats them all alike. -/
inductive ReadFailure where
  | badPath : ReadFailure
  | corruptFile : ReadFailure
  | unsupportedFormat : ReadFailure
  | other : String → ReadFailure
deriving DecidableEq

/-- Outcome of the load step of a session turn: either the turn is halted
after surfacing one error message (`st.error` then `st.stop()`, lines
55-56) with no table produced, or it proceeds with the loaded table. -/
inductive LoadOutcome where
  | halted (msg : String) : LoadOutcome
  | proceeded (df : List Row) : LoadOutcome
deriving DecidableEq

/-- The single user-facing message of line 55. -/
def errorMessage : String :=
  "Error loading dataset. Check file name/path or upload the file."

/-- Embeds `load_data` (lines 14-23) with the outcome of the external
`pd.read_excel` call passed in (`Except.error` embeds a raised parse
exception).  The column-header trimming of line 22 is the identity in this
embedding, where rows are records with fixed field names; a failure
propagates unchanged. -/
def load_data (readResult : Except ReadFailure (List Row)) :
    Except ReadFailure (List Row) :=
  match readResult with
  | Except.error e => Except.error e
  | Except.ok df => Except.ok df

/-- The `try/except` around the load (lines 52-56): any failure becomes the
single generic message and the turn halts; success proceeds with the table. -/
def run_load (readResult : Except ReadFailure (List Row)) : LoadOutcome :=
  match load_data readResult with
  | Except.error _ => LoadOutcome.halted errorMessage
  | Except.ok df => LoadOutcome.proceeded df

/-- Lines 58-60: `min_year = years[0]`, `max_year = years[-1]` on
`years = get_year_order(df)`.  Indexing an empty list raises `IndexError`
in Python; the fallible lookup is embedded as `Option`. -/
def year_bounds (df : List Row) : Option (String × String) :=
  match (get_year_order df)[0]?, (get_year_order df).getLast? with
  | some a, some b => some (a, b)
  | _, _ => none

/-! ### Sample data used by witnesses -/

/-- A well-formed Senior High School row with present, positive
infrastructure. -/
def row1 : Row :=
  { schoolYear := "2021-2022", region := "NCR - National Capital Region",
    level := "Senior High School", sector := "PUBLIC",
    totalEnrollment := 1000, totalInfrastructure := some 10 }

/-- A Senior High School row with present but zero infrastructure and
positive enrollment. -/
def row0 : Row :=
  { schoolYear := "2021-2022", region := "NCR - National Capital Region",
    level := "Senior High School", sector := "PUBLIC",
    totalEnrollment := 100, totalInfrastructure := some 0 }

/-- The congestion row `compute_shs` derives from `row1`. -/
def crow1 : CRow := { row := row1, learnersPerInfra := lpiDiv 1000 10 }

/-! ### Claim theorems -/

/-- C1: every row of `compute_shs`'s output is an input row with
`Level == "Senior High School"` and a present `Total Infrastructure`, and
every such input row appears in the output (the output rows are exactly
the filtered input rows, in order); hence the output is never longer than
the input and never contains a `"Junior High School"` row. -/
theorem compute_shs_rows (df : List Row) :
    (compute_shs df).map CRow.row =
      df.filter (fun r => (r.level == "Senior High School")
        && r.totalInfrastructure.isSome)
    ∧ (compute_shs df).length ≤ df.length
    ∧ ∀ c ∈ compute_shs df, c.row.level ≠ "Junior High School" := by
  refine ⟨?_, ?_, ?_⟩
  · rw [compute_shs, List.map_map]
    exact List.map_id _
  · calc (compute_shs df).length
        = (df.filter (fun r => (r.level == "Senior High School")
            && r.totalInfrastructure.isSome)).length := by
          simp [compute_shs]
      _ ≤ df.length := List.length_filter_le _ _
  · intro c hc
    obtain ⟨r, hr, rfl⟩ := List.mem_map.mp hc
    have hp := List.of_mem_filter hr
    have hlvl : r.level = "Senior High School" := by
      have := (Bool.and_eq_true _ _).mp hp
      simpa using this.1
    simp only [hlvl]
    decide

/-- C2: every output row of `compute_shs` has
`Learners per Infra = Total Enrollment / Total Infrastructure` of that
same row (with `lpiDiv` the embedded float division). -/
theorem compute_shs_ratio (df : List Row) (c : CRow) (h : c ∈ compute_shs df) :
    ∃ d, c.row.totalInfrastructure = some d ∧
      c.learnersPerInfra = lpiDiv c.row.totalEnrollment d := by
  obtain ⟨r, hr, rfl⟩ := List.mem_map.mp h
  have hp0 := List.of_mem_filter hr
  have hp := (Bool.and_eq_true _ _).mp hp0
  obtain ⟨d, hd⟩ := Option.isSome_iff_exists.mp hp.2
  exact ⟨d, hd, by simp [hd]⟩

/-- Witness for C2 at a concrete one-row table. -/
theorem compute_shs_ratio_witness :
    crow1 ∈ compute_shs [row1] ∧
    ∃ d, crow1.row.totalInfrastructure = some d ∧
      crow1.learnersPerInfra = lpiDiv crow1.row.totalEnrollment d :=
  ⟨List.mem_singleton.mpr rfl,
    compute_shs_ratio [row1] crow1 (List.mem_singleton.mpr rfl)⟩

/-- C6: `get_year_order` returns each distinct `School Year` value exactly
once (no duplicates, membership is exactly occurrence in the column),
sorted ascending, and calling it twice on the same table yields the same
sequence. -/
theorem get_year_order_props (df : List Row) :
    (get_year_order df).Nodup
    ∧ List.Sorted (· ≤ ·) (get_year_order df)
    ∧ (∀ y, y ∈ get_year_order df ↔ y ∈ df.map (fun r => r.schoolYear))
    ∧ get_year_order df = get_year_order df :=
  ⟨nodup_sortedDistinct _, sorted_sortedDistinct _,
    fun y => mem_sortedDistinct _ y, rfl⟩

/-- C7: `compute_shs` does not mutate its input table — the state-passing
embedding returns the caller's table unchanged (the source copies the
filtered frame before assigning, line 28) — and its output is a new table
whose rows each carry an unchanged original input row (all original
columns) plus the single added field `learnersPerInfra`. -/
theorem compute_shs_no_mutation (df : List Row) :
    (compute_shs_run df).1 = df
    ∧ (compute_shs_run df).2 = compute_shs df
    ∧ ∀ c ∈ (compute_shs_run df).2, c.row ∈ df := by
  refine ⟨rfl, rfl, ?_⟩
  intro c hc
  obtain ⟨r, hr, rfl⟩ := List.mem_map.mp hc
  exact List.mem_of_mem_filter hr

/-- C5: whatever the reason `pd.read_excel` fails with, the session turn
halts with the single generic user-facing message; no table is produced
(the `halted` outcome carries no table, so no downstream computation can
run on one). -/
theorem run_load_failure (e : ReadFailure) :
    run_load (Except.error e) = LoadOutcome.halted errorMessage := rfl

/-- C10: on a successfully parsed table with zero rows the load step
proceeds, but selecting the first and last ordered year fails (embedded
`none` for Python's `IndexError` on `years[0]`); and the year-bounds step
fails exactly when the table is empty, i.e. the pipeline's unstated
precondition is a non-empty `School Year` column. -/
theorem year_bounds_requires_nonempty :
    run_load (Except.ok []) = LoadOutcome.proceeded []
    ∧ year_bounds [] = none
    ∧ ∀ df : List Row, (year_bounds df = none ↔ df = []) := by
  refine ⟨rfl, rfl, ?_⟩
  intro df
  constructor
  · intro h
    by_contra hdf
    obtain ⟨r, df', rfl⟩ := List.exists_cons_of_ne_nil hdf
    have hm : r.schoolYear ∈ get_year_order (r :: df') := by
      rw [get_year_order, mem_sortedDistinct]
      exact List.mem_map_of_mem _ (List.mem_cons_self r df')
    have hne : get_year_order (r :: df') ≠ [] := List.ne_nil_of_mem hm
    rw [year_bounds] at h
    obtain ⟨a, ys, hy⟩ := List.exists_cons_of_ne_nil hne
    obtain ⟨b, hb⟩ := Option.isSome_iff_exists.mp
      (List.getLast?_isSome.mpr hne)
    rw [hy] at h hb
    rw [hb] at h
    simp at h
  · rintro rfl
    rfl

/-- C8: `ranking` on a year matching no row of the congestion table
returns the empty sequence (the filter leaves nothing, so there are no
groups and the sorted result is empty); no error is possible. -/
theorem ranking_no_match (shs : List CRow) (year : String)
    (h : ∀ c ∈ shs, c.row.schoolYear ≠ year) :
    ranking shs year = [] := by
  have hf : shs.filter (fun c => c.row.schoolYear == year) = [] :=
    List.filter_eq_nil_iff.mpr (fun c hc => by simp [h c hc])
  rw [ranking, rankingGroups, hf]
  rfl

/-- Witness for C8: a one-row table and a year matching no row. -/
theorem ranking_no_match_witness : ranking [crow1] "1999-2000" = [] :=
  ranking_no_match [crow1] "1999-2000" (by decide)

theorem sum_map_filter_add {α : Type} (p : α → Bool) (f : α → ℕ) (l : List α) :
    ((l.filter p).map f).sum + ((l.filter (fun a => !p a)).map f).sum
      = (l.map f).sum := by
  induction l with
  | nil => rfl
  | cons a l ih =>
    cases hp : p a
    · simp only [List.filter_cons, hp, Bool.not_false, if_true, if_false,
        Bool.false_eq_true, List.map_cons, List.sum_cons]
      omega
    · simp only [List.filter_cons, hp, Bool.not_true, if_true, if_false,
        Bool.false_eq_true, List.map_cons, List.sum_cons]
      omega

theorem sum_over_groups {α : Type} (key : α → String) (f : α → ℕ) :
    ∀ ks : List String, ks.Nodup → ∀ l : List α, (∀ a ∈ l, key a ∈ ks) →
      (ks.map (fun k => ((l.filter (fun a => key a == k)).map f).sum)).sum
        = (l.map f).sum := by
  intro ks
  induction ks with
  | nil =>
    intro _ l hcov
    have hl : l = [] := by
      cases l with
      | nil => rfl
      | cons a l => exact absurd (hcov a (List.mem_cons_self a l)) (List.not_mem_nil (key a))
    subst hl
    rfl
  | cons k ks ih =>
    intro hnd l hcov
    have hk : k ∉ ks := (List.nodup_cons.mp hnd).1
    have hnd' : ks.Nodup := (List.nodup_cons.mp hnd).2
    have hterm : ∀ k' ∈ ks,
        ((l.filter (fun a => key a == k')).map f).sum
          = (((l.filter (fun a => !(key a == k))).filter
              (fun a => key a == k')).map f).sum := by
      intro k' hk'
      have heq : l.filter (fun a => key a == k')
          = l.filter (fun a => (key a == k') && !(key a == k)) := by
        apply List.filter_congr
        intro a _
        cases hke : (key a == k') with
        | false => simp
        | true =>
          have hak : key a = k' := by simpa using hke
          have hne : key a ≠ k := fun hkk => hk ((hak.symm.trans hkk) ▸ hk')
          have hkf : (key a == k) = false := by simpa using hne
          simp [hkf]
      rw [heq, ← List.filter_filter]
    rw [List.map_cons, List.sum_cons, List.map_congr_left hterm,
      ih hnd' (l.filter (fun a => !(key a == k))) ?_]
    · exact sum_map_filter_add (fun a => key a == k) f l
    · intro a ha
      have hal : a ∈ l := List.mem_of_mem_filter ha
      have hne : (key a == k) = false := by
        have := List.of_mem_filter ha
        simpa using this
      rcases List.mem_cons.mp (hcov a hal) with hh | hh
      · exact absurd hh (by simpa using hne)
      · exact hh

/-- C4: the sum over the rows of `nat_shs`'s output of the per-year summed
`Total Enrollment` equals the sum of `Total Enrollment` over all rows of
the congestion table (grouping by `School Year` conserves the total). -/
theorem nat_shs_conserves (shs : List CRow) :
    ((nat_shs shs).map (fun t => t.2.1)).sum
      = (shs.map (fun c => c.row.totalEnrollment)).sum := by
  rw [nat_shs, List.map_map]
  exact sum_over_groups (fun c => c.row.schoolYear)
    (fun c => c.row.totalEnrollment)
    (sortedDistinct (shs.map (fun c => c.row.schoolYear)))
    (nodup_sortedDistinct _) shs
    (fun c hc => (mem_sortedDistinct _ _).mpr (List.mem_map_of_mem _ hc))

/-- C3: `ranking` filters to the year, groups by `Region`, takes the mean
of `Learners per Infra` per region (`rankingGroups`), and returns those
pairs sorted descending by mean: the result is a permutation of the
grouped means, and each adjacent pair satisfies the descending order
(the later value is `≤` the earlier one under the sort's comparison). -/
theorem ranking_sorted_desc (shs : List CRow) (year : String) :
    List.Chain' rankLE (ranking shs year)
    ∧ (ranking shs year).Perm (rankingGroups shs year) :=
  ⟨List.Pairwise.chain' (List.sorted_insertionSort rankLE (rankingGroups shs year)),
    List.perm_insertionSort rankLE (rankingGroups shs year)⟩

theorem not_nan_foldr {ws : List LpI} (hn : ∀ v ∈ ws, v.isNan = false) :
    (ws.foldr LpI.add (LpI.fin 0)).isNan = false := by
  induction ws with
  | nil => rfl
  | cons v ws ih =>
    have hv := hn v (List.mem_cons_self v ws)
    have hrest := ih (fun u hu => hn u (List.mem_cons_of_mem v hu))
    rw [List.foldr_cons]
    cases v <;> cases hws : ws.foldr LpI.add (LpI.fin 0) <;>
      simp_all [LpI.add, LpI.isNan]

theorem foldr_add_eq_inf {ws : List LpI} (hn : ∀ v ∈ ws, v.isNan = false)
    (hi : LpI.inf ∈ ws) : ws.foldr LpI.add (LpI.fin 0) = LpI.inf := by
  induction ws with
  | nil => cases hi
  | cons v ws ih =>
    have hrest := not_nan_foldr (fun u hu => hn u (List.mem_cons_of_mem v hu))
    rw [List.foldr_cons]
    rcases List.mem_cons.mp hi with hv | hv
    · cases hv
      cases hws : ws.foldr LpI.add (LpI.fin 0) <;> simp_all [LpI.add, LpI.isNan]
    · have hws := ih (fun u hu => hn u (List.mem_cons_of_mem v hu)) hv
      rw [hws]
      have hvn := hn v (List.mem_cons_self v ws)
      cases v <;> simp_all [LpI.add, LpI.isNan]

theorem lpiMean_inf {vs : List LpI} (h : LpI.inf ∈ vs) : lpiMean vs = LpI.inf := by
  have hmem : LpI.inf ∈ vs.filter (fun v => !v.isNan) :=
    List.mem_filter.mpr ⟨h, rfl⟩
  have hn : ∀ v ∈ vs.filter (fun v => !v.isNan), v.isNan = false := by
    intro v hv
    have := List.of_mem_filter hv
    simpa using this
  have hne : ¬ ((vs.filter (fun v => !v.isNan)).isEmpty = true) := by
    intro he
    rw [List.isEmpty_iff] at he
    rw [he] at hmem
    exact List.not_mem_nil _ hmem
  rw [lpiMean, if_neg hne, foldr_add_eq_inf hn hmem]
  rfl

/-- C9: an input row with `Level = "Senior High School"`, present
`Total Infrastructure` equal to `0`, and positive `Total Enrollment` is
kept by `compute_shs` with `Learners per Infra = +∞` (no error), and that
infinite value flows unguarded through the per-region mean into the
congestion ranking, which contains the pair `(region, +∞)`. -/
theorem zero_infra_flows_inf (df : List Row) (r : Row)
    (hmem : r ∈ df) (hlvl : r.level = "Senior High School")
    (hinfra : r.totalInfrastructure = some 0) (henr : 0 < r.totalEnrollment) :
    (∃ c ∈ compute_shs df, c.row = r ∧ c.learnersPerInfra = LpI.inf)
    ∧ ∃ p ∈ ranking (compute_shs df) r.schoolYear,
        p.1 = r.region ∧ p.2 = LpI.inf := by
  have hpred : ((r.level == "Senior High School")
      && r.totalInfrastructure.isSome) = true := by
    simp [hlvl, hinfra]
  have hrf : r ∈ df.filter (fun r => (r.level == "Senior High School")
      && r.totalInfrastructure.isSome) :=
    List.mem_filter.mpr ⟨hmem, hpred⟩
  have hlpi : lpiDiv r.totalEnrollment (r.totalInfrastructure.getD 0) = LpI.inf := by
    rw [hinfra]
    simp [lpiDiv, Nat.pos_iff_ne_zero.mp henr]
  have hcmem : (⟨r, lpiDiv r.totalEnrollment (r.totalInfrastructure.getD 0)⟩ : CRow)
      ∈ compute_shs df :=
    List.mem_map_of_mem _ hrf
  have hcy : (⟨r, lpiDiv r.totalEnrollment (r.totalInfrastructure.getD 0)⟩ : CRow)
      ∈ (compute_shs df).filter (fun c => c.row.schoolYear == r.schoolYear) :=
    List.mem_filter.mpr ⟨hcmem, by simp⟩
  have hreg : r.region ∈ sortedDistinct (((compute_shs df).filter
      (fun c => c.row.schoolYear == r.schoolYear)).map (fun c => c.row.region)) := by
    rw [mem_sortedDistinct]
    exact List.mem_map.mpr
      ⟨⟨r, lpiDiv r.totalEnrollment (r.totalInfrastructure.getD 0)⟩, hcy, rfl⟩
  have hvinf : LpI.inf ∈ (((compute_shs df).filter
      (fun c => c.row.schoolYear == r.schoolYear)).filter
      (fun c => c.row.region == r.region)).map (fun c => c.learnersPerInfra) :=
    List.mem_map.mpr
      ⟨⟨r, lpiDiv r.totalEnrollment (r.totalInfrastructure.getD 0)⟩,
        List.mem_filter.mpr ⟨hcy, by simp⟩, hlpi⟩
  have hpair : (r.region, lpiMean ((((compute_shs df).filter
      (fun c => c.row.schoolYear == r.schoolYear)).filter
      (fun c => c.row.region == r.region)).map (fun c => c.learnersPerInfra)))
      ∈ rankingGroups (compute_shs df) r.schoolYear := by
    rw [rankingGroups]
    exact List.mem_map_of_mem _ hreg
  refine ⟨⟨⟨r, lpiDiv r.totalEnrollment (r.totalInfrastructure.getD 0)⟩,
    hcmem, rfl, hlpi⟩, ?_⟩
  refine ⟨(r.region, lpiMean ((((compute_shs df).filter
      (fun c => c.row.schoolYear == r.schoolYear)).filter
      (fun c => c.row.region == r.region)).map (fun c => c.learnersPerInfra))),
    ?_, rfl, lpiMean_inf hvinf⟩
  rw [ranking, List.mem_insertionSort]
  exact hpair

/-- Witness for C9 at a concrete one-row table with zero infrastructure. -/
theorem zero_infra_flows_inf_witness :
    (∃ c ∈ compute_shs [row0], c.row = row0 ∧ c.learnersPerInfra = LpI.inf)
    ∧ ∃ p ∈ ranking (compute_shs [row0]) row0.schoolYear,
        p.1 = row0.region ∧ p.2 = LpI.inf :=
  zero_infra_flows_inf [row0] row0 (List.mem_singleton.mpr rfl) rfl rfl (by decide)

end AppDataViz
